import Mathlib

/-
Verification of the color-math pipeline of maketheme.py, the CSS theme
generator of uci-linkding-bookmarks.

Embedding conventions:
* Python floats are modeled as exact rationals.
* Python int() truncation toward zero is pyInt.
* Operations that can raise at runtime (ZeroDivisionError in float division,
  ValueError in int(s, 16)) return Option; a raised exception is none.
* colorsys.rgb_to_hls is transcribed from the CPython standard library
  (the repository only imports it).
-/

/- Batteries seals rational arithmetic behind irreducibility; the witnesses
below evaluate the pipeline on concrete inputs, so reduction is restored.
This changes no definition and no proof obligation. -/
set_option allowUnsafeReducibility true in
attribute [semireducible] Rat.add Rat.mul Rat.inv Rat.sub Rat.ofScientific

/-- Python max on rationals (kernel-reducible). -/
def maxQ (a b : ℚ) : ℚ := if a < b then b else a

/-- Python min on rationals (kernel-reducible). -/
def minQ (a b : ℚ) : ℚ := if b < a then b else a

/-- Python max on integers (kernel-reducible). -/
def maxZ (a b : ℤ) : ℤ := if a < b then b else a

/-- Python min on integers (kernel-reducible). -/
def minZ (a b : ℤ) : ℤ := if b < a then b else a

/-- An RGB color: a Python 3-tuple of ints. -/
structure RGB where
  r : ℤ
  g : ℤ
  b : ℤ
deriving DecidableEq

/-- Python int() applied to a real number: truncation toward zero. -/
def pyInt (q : ℚ) : ℤ := if q < 0 then ⌈q⌉ else ⌊q⌋

/-- Python x % 1.0 for a real x (divisor positive, result in [0,1)). -/
def pyMod1 (q : ℚ) : ℚ := q - ⌊q⌋

/-- CPython colorsys.rgb_to_hls, channels already normalized to [0,1].
Returns (h, l, s).  The saturation divisions are guarded in CPython only
by minc ≠ maxc; for channels in [0,1] (the only inputs the repository
produces) the divisors are then nonzero, so the rational junk value 0/0=0
is never the value CPython would have raised on. -/
def rgb_to_hls (r g b : ℚ) : ℚ × ℚ × ℚ :=
  let maxc := maxQ r (maxQ g b)
  let minc := minQ r (minQ g b)
  let sumc := maxc + minc
  let rangec := maxc - minc
  let l := sumc / 2
  if minc = maxc then (0, l, 0)
  else
    let s := if l ≤ 1/2 then rangec / sumc else rangec / (2 - maxc - minc)
    let rc := (maxc - r) / rangec
    let gc := (maxc - g) / rangec
    let bc := (maxc - b) / rangec
    let h := if r = maxc then bc - gc
             else if g = maxc then 2 + rc - bc
             else 4 + gc - rc
    (pyMod1 (h / 6), l, s)

/-- maketheme.rgb_to_hsl: normalize channels, call colorsys, reorder to
(h, s, l). -/
def rgb_to_hsl (r g b : ℤ) : ℚ × ℚ × ℚ :=
  let x := rgb_to_hls ((r : ℚ) / 255) ((g : ℚ) / 255) ((b : ℚ) / 255)
  (x.1, x.2.2, x.2.1)

/-- Hue component of rgb_to_hsl of a color. -/
def hslH (c : RGB) : ℚ := (rgb_to_hsl c.r c.g c.b).1

/-- Lightness component of rgb_to_hsl of a color. -/
def hslL (c : RGB) : ℚ := (rgb_to_hsl c.r c.g c.b).2.2

/-- maketheme.rgb_to_str. -/
def rgb_to_str (c : RGB) : String :=
  "rgb(" ++ toString c.r ++ ", " ++ toString c.g ++ ", " ++ toString c.b ++ ")"

/-- maketheme.rgba_to_str.  The alpha arguments at every call site are the
literals 0.15, 0.5 and 0.6, whose Python str() is their source text, so the
embedding takes the formatted alpha directly. -/
def rgba_to_str (c : RGB) (alpha : String) : String :=
  "rgba(" ++ toString c.r ++ ", " ++ toString c.g ++ ", " ++ toString c.b
    ++ ", " ++ alpha ++ ")"

/-- maketheme.adjust_rgb: scale each channel, truncate, clamp to [0,255]. -/
def adjust_rgb (c : RGB) (factor : ℚ) : RGB :=
  ⟨minZ 255 (maxZ 0 (pyInt ((c.r : ℚ) * factor))),
   minZ 255 (maxZ 0 (pyInt ((c.g : ℚ) * factor))),
   minZ 255 (maxZ 0 (pyInt ((c.b : ℚ) * factor)))⟩

/-- maketheme.get_neutral_rgb. -/
def get_neutral_rgb (c : RGB) : RGB :=
  let l := hslL c
  adjust_rgb c (if 0 < l then (1 / 2) / l else 1)

/-- Value of a hex digit character (only applied to hex digits). -/
def hexVal (c : Char) : ℕ :=
  if c.isDigit then c.toNat - 48
  else if ('a').toNat ≤ c.toNat ∧ c.toNat ≤ ('f').toNat then c.toNat - 87
  else c.toNat - 55

/-- A hex digit: 0-9, a-f, A-F. -/
def isHexDigit (c : Char) : Bool :=
  c.isDigit || (('a').toNat ≤ c.toNat && c.toNat ≤ ('f').toNat)
    || (('A').toNat ≤ c.toNat && c.toNat ≤ ('F').toNat)

/-- Python int(s, 16) restricted to plain strings of hex digits: empty or
non-hex-digit input raises ValueError (none).  CPython additionally accepts
signs, whitespace, an 0x prefix and underscores; no repository input and no
claim touches those forms. -/
def pyIntHex (s : List Char) : Option ℤ :=
  if s ≠ [] ∧ ∀ c ∈ s, isHexDigit c then
    some (s.foldl (fun a c => 16 * a + (hexVal c : ℤ)) 0)
  else none

/-- maketheme.hex_to_rgb: lstrip all leading hash marks, then base-16 decode
the slices [0:2], [2:4], [4:6]. -/
def hex_to_rgb (hex_color : String) : Option RGB := do
  let t := hex_color.data.dropWhile (fun c => c == ('#'))
  let rv ← pyIntHex ((t.drop 0).take 2)
  let gv ← pyIntHex ((t.drop 2).take 2)
  let bv ← pyIntHex ((t.drop 4).take 2)
  some ⟨rv, gv, bv⟩

/-- maketheme.get_hue_rotation. -/
def get_hue_rotation (from_color to_color : String) : Option ℤ := do
  let from_rgb ← hex_to_rgb from_color
  let to_rgb ← hex_to_rgb to_color
  let from_h := hslH from_rgb * 360
  let to_h := hslH to_rgb * 360
  let rotation := to_h - from_h
  let rotation := if 180 < |rotation| then
      (if 0 < rotation then rotation - 360 else rotation + 360)
    else rotation
  some (pyInt rotation)

/-- maketheme.adjust_dl: clamp position to [0,2], then blend the neutral
color toward black (position < 1) or white (position ≥ 1). -/
def adjust_dl (neutral_rgb : RGB) (position : ℚ) : RGB :=
  let position := maxQ 0 (minQ 2 position)
  if position < 1 then
    ⟨pyInt ((neutral_rgb.r : ℚ) * position),
     pyInt ((neutral_rgb.g : ℚ) * position),
     pyInt ((neutral_rgb.b : ℚ) * position)⟩
  else
    let factor := position - 1
    ⟨pyInt ((neutral_rgb.r : ℚ) + (255 - (neutral_rgb.r : ℚ)) * factor),
     pyInt ((neutral_rgb.g : ℚ) + (255 - (neutral_rgb.g : ℚ)) * factor),
     pyInt ((neutral_rgb.b : ℚ) + (255 - (neutral_rgb.b : ℚ)) * factor)⟩

/-- maketheme.scheme_adjust_dl: only the literal scheme string light inverts
the position. -/
def scheme_adjust_dl (neutral_rgb : RGB) (scheme : String) (position : ℚ) : RGB :=
  let position := if scheme = "light" then 2 - position else position
  adjust_dl neutral_rgb position

/-- maketheme.get_position.  Python divides floats after the comparison, so
a zero divisor raises: neutral lightness 0 in the first branch, neutral
lightness 1 in the second. -/
def get_position (color neutral_rgb : RGB) : Option ℚ :=
  let color_l := hslL color
  let neutral_l := hslL neutral_rgb
  if color_l ≤ neutral_l then
    if neutral_l = 0 then none else some (color_l / neutral_l)
  else
    if neutral_l = 1 then none else some (1 + (color_l - neutral_l) / (1 - neutral_l))

/-- maketheme.rl_adjust: only the literal scheme string dark keeps the shift
direction; every other scheme negates it. -/
def rl_adjust (color : RGB) (shift : ℚ) (neutral_rgb : RGB) (scheme : String) :
    Option RGB := do
  let current_pos ← get_position color neutral_rgb
  let max_up := 2 - current_pos
  let max_down := current_pos
  let shift := maxQ (-max_down) (minQ max_up (if scheme = "dark" then shift else -shift))
  some (adjust_dl neutral_rgb (current_pos + shift))

/-- maketheme.generate_theme.  The f-string template is transcribed verbatim
(including comments and trailing blanks); the eight rl_adjust holes are bound
first, since a raised exception in any hole aborts the whole call.  Brace
characters of the CSS text are written with hex escapes. -/
def generate_theme (base_color : String) (scheme : String) : Option String := do
  let raw_rgb ← hex_to_rgb base_color
  let neutral_rgb := get_neutral_rgb raw_rgb
  let adjust := fun (position : ℚ) => scheme_adjust_dl neutral_rgb scheme position
  let rel_adjust := fun (color : RGB) (shift : ℚ) => rl_adjust color shift neutral_rgb scheme
  let primary := adjust (3/10)
  let contrast := adjust (9/5)
  let logo_rotation ← get_hue_rotation ("#815EE8") base_color
  let pch ← rel_adjust primary (1/10)
  let pcs ← rel_adjust primary (-(1/10))
  let stc ← rel_adjust contrast (-(1/5))
  let ttc ← rel_adjust contrast (-(2/5))
  let ibg ← rel_adjust primary (3/10)
  let ibd ← rel_adjust primary (1/2)
  let itx ← rel_adjust contrast (1/10)
  let mbg ← rel_adjust primary (1/5)
  some (("/* Generated theme from ") ++ base_color ++ (" */\n:root \x7b\n\n    /* Contrast levels */\n    --contrast-5: ")
    ++ rgb_to_str (adjust (1/10)) ++ (";     /* 5% contrast */\n    --contrast-10: ")
    ++ rgb_to_str (adjust (1/5)) ++ (";    /* 10% contrast */\n    --contrast-20: ")
    ++ rgb_to_str (adjust (2/5)) ++ (";    /* 20% contrast */\n    --contrast-30: ")
    ++ rgb_to_str (adjust (3/5)) ++ (";    /* 30% contrast */\n    --contrast-40: ")
    ++ rgb_to_str (adjust (4/5)) ++ (";    /* 40% contrast */\n    --contrast-50: ")
    ++ rgb_to_str (adjust 1) ++ (";    /* 50% contrast (neutral) */\n    --contrast-60: ")
    ++ rgb_to_str (adjust (6/5)) ++ (";    /* 60% contrast */\n    --contrast-70: ")
    ++ rgb_to_str (adjust (7/5)) ++ (";    /* 70% contrast */\n    --contrast-80: ")
    ++ rgb_to_str (adjust (8/5)) ++ (";    /* 80% contrast */\n    --contrast-90: ")
    ++ rgb_to_str (adjust (9/5)) ++ (";    /* 90% contrast */\n\n    /* Primary colors */\n    --primary-color: ")
    ++ rgb_to_str primary ++ (";\n    --primary-color-highlight: ")
    ++ rgb_to_str pch ++ (";\n    --primary-color-shade: ")
    ++ rgb_to_str pcs ++ (";\n    --primary-overlay: ")
    ++ rgba_to_str primary ("0.15") ++ (";\n\n    /* Base theme colors */\n    --body-color: ")
    ++ rgb_to_str primary ++ (";\n    --body-color-contrast: var(--contrast-30);\n\n    /* Text colors */\n    --text-color: ")
    ++ rgb_to_str contrast ++ (";\n    --secondary-text-color: ")
    ++ rgb_to_str stc ++ (";\n    --tertiary-text-color: ")
    ++ rgb_to_str ttc ++ (";\n    --contrast-text-color: ")
    ++ rgb_to_str (adjust 2) ++ (";    /* White in dark theme, Black in light theme */\n    --primary-text-color: ")
    ++ rgb_to_str (adjust 1) ++ (";   \n\n    /* Link colors */\n    --link-color: ")
    ++ rgb_to_str (adjust 1) ++ ("; /* works for either */\n    --secondary-link-color: ")
    ++ rgb_to_str (adjust (6/5)) ++ (";\n\n    --alternative-color: ")
    ++ rgb_to_str (adjust 1) ++ (";\n    --alternative-color-dark: ")
    ++ rgb_to_str contrast ++ (";\n\n    /* Icon colors */\n    --icon-color: var(--text-color);  \n\n    /* Border colors */\n    --border-color: var(--contrast-30);\n    --secondary-border-color: var(--contrast-20);\n    --focus-outline: 3px solid var(--contrast-40);\n\n    /* Input styling */\n    --input-bg: ")
    ++ rgb_to_str ibg ++ (";\n    --input-border: ")
    ++ rgb_to_str ibd ++ (";\n    --input-text: ")
    ++ rgb_to_str itx ++ (";\n    --input-bg-color: var(--input-bg);\n    --input-disabled-bg-color: var(--contrast-30);          /* Use contrast scale for disabled state */\n    --input-text-color: var(--input-text);\n    --input-hint-color: var(--secondary-text-color);        /* Reuse secondary text color */\n    --input-border-color: var(--border-color);             /* Reuse global border color */\n    --input-placeholder-color: ")
    ++ rgba_to_str contrast ("0.5") ++ ("; /* Semi-transparent version of text color */\n\n    /* Form elements */\n    --checkbox-bg-color: var(--contrast-10);\n    --checkbox-checked-bg-color: var(--input-bg);\n    --checkbox-disabled-bg-color: var(--primary);\n    --checkbox-border-color: var(--border-color);\n    --checkbox-icon-color: var(--contrast-text-color);\n\n    /* Button styling */\n    --btn-bg-color: ")
    ++ rgba_to_str contrast ("0.5") ++ (";              /* Subtle background */\n    --btn-hover-bg-color: ")
    ++ rgba_to_str contrast ("0.6") ++ (";      /* Slightly more visible on hover */\n    --btn-border-color: var(--border-color);        /* Match global borders */\n    --btn-text-color: var(--input-text);           /* Match main text */\n    --btn-icon-color: var(--btn-text-color);           /* Match icons */\n\n    /* Special buttons - using predefined semantic colors */\n    --btn-primary-bg-color: var(--btn-bg-color);\n    --btn-primary-hover-bg-color: var(--btn-hover-bg-color);\n    --btn-primary-text-color: var(--input-text);\n\n    --btn-success-bg-color: var(--success-color);\n    --btn-success-hover-bg-color: var(--success-color-highlight);\n    --btn-success-text-color: var(--contrast-text-color);\n\n    --btn-error-bg-color: var(--error-color);\n    --btn-error-hover-bg-color: var(--error-color-highlight);\n    --btn-error-text-color: var(--contrast-text-color);\n\n    --btn-link-text-color: var(--link-color);\n    --btn-link-hover-text-color: var(--link-color);\n\n    /* Menu styling */\n    --menu-bg-color: ")
    ++ rgb_to_str mbg ++ (";     /* Slightly lighter/darker than body */\n    --menu-border-color: var(--contrast-30);                      /* Consistent borders */\n    --menu-item-color: var(--text-color);                        /* Normal text color */\n    --menu-item-hover-color: var(--text-color);                  /* Keep text color on hover */\n    --menu-item-bg-color: transparent;                           /* No background by default */\n    --menu-item-hover-bg-color: var(--contrast-20);             /* Subtle hover effect */\n\n    /* Tab styling - looks good, using text colors consistently */\n    --tab-color: var(--text-color);\n    --tab-hover-color: var(--primary-text-color);\n    --tab-active-color: var(--primary-text-color);\n    --tab-highlight-color: var(--primary-text-color);\n\n    /* Bookmark styling - good hierarchy of text colors */\n    --bookmark-title-color: var(--primary-text-color);\n    --bookmark-description-color: var(--text-color);\n    --bookmark-actions-color: var(--secondary-text-color);\n    --bookmark-actions-hover-color: var(--text-color);\n\n    /* Switch specific - good use of contrast scale */\n    --switch-bg-color: var(--contrast-10);\n    --switch-border-color: var(--border-color);\n    --switch-toggle-color: var(--text-color);\n\n    /* Modal additions */\n    --modal-overlay-bg-color: ")
    ++ rgba_to_str (adjust (1/10)) ("0.5") ++ (";   /* Semi-transparent dark overlay */\n    --modal-container-bg-color: ")
    ++ rgb_to_str primary ++ (";           /* Same as body background */\n    --modal-container-border-color: var(--contrast-30);\n    --modal-box-shadow: none;\n\n    /* Bulk actions - good subtle background */\n    --bulk-actions-bg-color: var(--contrast-5);\n\n    color-scheme: ")
    ++ scheme ++ (";\n\x7d\n\n/* Special logo styling that can\x27t be handled by variables */\n.logo \x7b\n    filter: hue-rotate(")
    ++ toString logo_rotation ++ ("deg) saturate(130%) brightness(120%) !important;\n\x7d\n\n\x7d"))

/-- Occurrences of a character in a string. -/
def countChar (s : String) (c : Char) : ℕ := s.data.count c

/-- All channels in [0,255]: the RGB data model of the spec. -/
def inRange (c : RGB) : Prop :=
  0 ≤ c.r ∧ c.r ≤ 255 ∧ 0 ≤ c.g ∧ c.g ≤ 255 ∧ 0 ≤ c.b ∧ c.b ≤ 255

instance inRange.dec (c : RGB) : Decidable (inRange c) := by
  unfold inRange
  infer_instance

/-- Largest channel of a color. -/
def maxCh (c : RGB) : ℤ := maxZ c.r (maxZ c.g c.b)

/-- Smallest channel of a color. -/
def minCh (c : RGB) : ℤ := minZ c.r (minZ c.g c.b)

/-! Helper lemmas about the embedded functions. -/

theorem maxQ_eq (a b : ℚ) : maxQ a b = max a b := by
  unfold maxQ
  rcases lt_or_ge a b with h | h
  · simp [h, max_eq_right h.le]
  · simp [not_lt.mpr h, max_eq_left h]

theorem minQ_eq (a b : ℚ) : minQ a b = min a b := by
  unfold minQ
  rcases lt_or_ge b a with h | h
  · simp [h, min_eq_right h.le]
  · simp [not_lt.mpr h, min_eq_left h]

theorem maxZ_eq (a b : ℤ) : maxZ a b = max a b := by
  unfold maxZ
  rcases lt_or_ge a b with h | h
  · simp [h, max_eq_right h.le]
  · simp [not_lt.mpr h, max_eq_left h]

theorem minZ_eq (a b : ℤ) : minZ a b = min a b := by
  unfold minZ
  rcases lt_or_ge b a with h | h
  · simp [h, min_eq_right h.le]
  · simp [not_lt.mpr h, min_eq_left h]

theorem pyInt_of_nonneg (q : ℚ) (h : 0 ≤ q) : pyInt q = ⌊q⌋ := by
  unfold pyInt
  rw [if_neg (not_lt.mpr h)]

theorem pyInt_intCast (z : ℤ) : pyInt (z : ℚ) = z := by
  unfold pyInt
  rcases lt_or_ge (z : ℚ) 0 with h | h
  · rw [if_pos h, Int.ceil_intCast]
  · rw [if_neg (not_lt.mpr h), Int.floor_intCast]

theorem pyInt_neg (q : ℚ) : pyInt (-q) = -pyInt q := by
  unfold pyInt
  rcases lt_trichotomy q 0 with h | h | h
  · rw [if_neg (by linarith : ¬ -q < 0), if_pos h, Int.floor_neg]
  · subst h
    norm_num
  · rw [if_pos (by linarith : -q < 0), if_neg (by linarith : ¬ q < 0), Int.ceil_neg]

theorem pyInt_nonneg (q : ℚ) (h : 0 ≤ q) : 0 ≤ pyInt q := by
  rw [pyInt_of_nonneg q h]
  exact Int.floor_nonneg.mpr h

theorem pyInt_le (q : ℚ) (z : ℤ) (h0 : 0 ≤ q) (h : q ≤ (z : ℚ)) : pyInt q ≤ z := by
  rw [pyInt_of_nonneg q h0]
  calc ⌊q⌋ ≤ ⌊(z : ℚ)⌋ := Int.floor_mono h
  _ = z := Int.floor_intCast z

theorem rgb_to_hls_l (r g b : ℚ) :
    (rgb_to_hls r g b).2.1 = (maxQ r (maxQ g b) + minQ r (minQ g b)) / 2 := by
  simp only [rgb_to_hls]
  split <;> rfl

theorem hslL_eq (c : RGB) : hslL c = ((maxCh c : ℚ) + (minCh c : ℚ)) / 510 := by
  unfold hslL rgb_to_hsl
  simp only [rgb_to_hls_l]
  unfold maxCh minCh
  rw [maxQ_eq, maxQ_eq, minQ_eq, minQ_eq, maxZ_eq, maxZ_eq, minZ_eq, minZ_eq]
  rw [max_div_div_right (by norm_num : (0:ℚ) ≤ 255) ((c.g : ℚ)) ((c.b : ℚ)),
    max_div_div_right (by norm_num : (0:ℚ) ≤ 255) ((c.r : ℚ)) (max (c.g : ℚ) (c.b : ℚ)),
    min_div_div_right (by norm_num : (0:ℚ) ≤ 255) ((c.g : ℚ)) ((c.b : ℚ)),
    min_div_div_right (by norm_num : (0:ℚ) ≤ 255) ((c.r : ℚ)) (min (c.g : ℚ) (c.b : ℚ))]
  push_cast
  ring

theorem hslL_mem (c : RGB) (h : inRange c) : 0 ≤ hslL c ∧ hslL c ≤ 1 := by
  obtain ⟨h1, h2, h3, h4, h5, h6⟩ := h
  rw [hslL_eq]
  unfold maxCh minCh
  rw [maxZ_eq, maxZ_eq, minZ_eq, minZ_eq]
  have hM : max c.r (max c.g c.b) ≤ 255 := max_le h2 (max_le h4 h6)
  have hM0 : (0:ℤ) ≤ max c.r (max c.g c.b) := le_trans h1 (le_max_left _ _)
  have hm : min c.r (min c.g c.b) ≤ 255 := le_trans (min_le_left _ _) h2
  have hm0 : (0:ℤ) ≤ min c.r (min c.g c.b) := le_min h1 (le_min h3 h5)
  constructor
  · apply div_nonneg _ (by norm_num)
    push_cast
    have := add_nonneg hM0 hm0
    exact_mod_cast this
  · rw [div_le_one (by norm_num : (0:ℚ) < 510)]
    have : max c.r (max c.g c.b) + min c.r (min c.g c.b) ≤ 510 := by omega
    exact_mod_cast this

theorem adjust_dl_channel_lo (x : ℤ) (q : ℚ) (hx0 : 0 ≤ x) (hx255 : x ≤ 255)
    (hq0 : 0 ≤ q) (hq1 : q ≤ 1) :
    0 ≤ pyInt ((x : ℚ) * q) ∧ pyInt ((x : ℚ) * q) ≤ 255 := by
  have hx0q : (0:ℚ) ≤ (x:ℚ) := by exact_mod_cast hx0
  have hprod : (0:ℚ) ≤ (x:ℚ) * q := mul_nonneg hx0q hq0
  refine ⟨pyInt_nonneg _ hprod, pyInt_le _ _ hprod ?_⟩
  have : (x:ℚ) * q ≤ 255 * 1 := by
    apply mul_le_mul (by exact_mod_cast hx255) hq1 hq0 (by norm_num)
  push_cast
  linarith

theorem adjust_dl_channel_hi (x : ℤ) (f : ℚ) (hx0 : 0 ≤ x) (hx255 : x ≤ 255)
    (hf0 : 0 ≤ f) (hf1 : f ≤ 1) :
    0 ≤ pyInt ((x : ℚ) + (255 - (x : ℚ)) * f) ∧ pyInt ((x : ℚ) + (255 - (x : ℚ)) * f) ≤ 255 := by
  have hx0q : (0:ℚ) ≤ (x:ℚ) := by exact_mod_cast hx0
  have hx255q : (x:ℚ) ≤ 255 := by exact_mod_cast hx255
  have hrest : (0:ℚ) ≤ (255 - (x:ℚ)) * f := mul_nonneg (by linarith) hf0
  have hval0 : (0:ℚ) ≤ (x:ℚ) + (255 - (x:ℚ)) * f := by linarith
  refine ⟨pyInt_nonneg _ hval0, pyInt_le _ _ hval0 ?_⟩
  have : (255 - (x:ℚ)) * f ≤ (255 - (x:ℚ)) * 1 :=
    mul_le_mul_of_nonneg_left hf1 (by linarith)
  push_cast
  linarith

theorem adjust_dl_mem (n : RGB) (p : ℚ) (h : inRange n) : inRange (adjust_dl n p) := by
  obtain ⟨h1, h2, h3, h4, h5, h6⟩ := h
  simp only [adjust_dl]
  have hq0 : 0 ≤ maxQ 0 (minQ 2 p) := by
    rw [maxQ_eq]
    exact le_max_left _ _
  have hq2 : maxQ 0 (minQ 2 p) ≤ 2 := by
    rw [maxQ_eq, minQ_eq]
    exact max_le (by norm_num) (min_le_left _ _)
  split
  · rename_i hlt
    have hq1 : maxQ 0 (minQ 2 p) ≤ 1 := le_of_lt hlt
    exact ⟨(adjust_dl_channel_lo _ _ h1 h2 hq0 hq1).1, (adjust_dl_channel_lo _ _ h1 h2 hq0 hq1).2,
      (adjust_dl_channel_lo _ _ h3 h4 hq0 hq1).1, (adjust_dl_channel_lo _ _ h3 h4 hq0 hq1).2,
      (adjust_dl_channel_lo _ _ h5 h6 hq0 hq1).1, (adjust_dl_channel_lo _ _ h5 h6 hq0 hq1).2⟩
  · rename_i hge
    have hf0 : 0 ≤ maxQ 0 (minQ 2 p) - 1 := by
      have := not_lt.mp hge
      linarith
    have hf1 : maxQ 0 (minQ 2 p) - 1 ≤ 1 := by linarith
    exact ⟨(adjust_dl_channel_hi _ _ h1 h2 hf0 hf1).1, (adjust_dl_channel_hi _ _ h1 h2 hf0 hf1).2,
      (adjust_dl_channel_hi _ _ h3 h4 hf0 hf1).1, (adjust_dl_channel_hi _ _ h3 h4 hf0 hf1).2,
      (adjust_dl_channel_hi _ _ h5 h6 hf0 hf1).1, (adjust_dl_channel_hi _ _ h5 h6 hf0 hf1).2⟩

theorem adjust_rgb_mem (c : RGB) (f : ℚ) : inRange (adjust_rgb c f) := by
  unfold adjust_rgb inRange
  refine ⟨?_, ?_, ?_, ?_, ?_, ?_⟩ <;>
    simp only [minZ_eq, maxZ_eq] <;>
    first
      | exact le_min (by norm_num) (le_max_left _ _)
      | exact min_le_left _ _

theorem get_neutral_rgb_mem (c : RGB) : inRange (get_neutral_rgb c) := by
  unfold get_neutral_rgb
  exact adjust_rgb_mem _ _

theorem get_position_mem (c n : RGB) (hc : inRange c) (p : ℚ)
    (h : get_position c n = some p) : 0 ≤ p ∧ p ≤ 2 := by
  obtain ⟨hc0, hc1⟩ := hslL_mem c hc
  simp only [get_position] at h
  by_cases h1 : hslL c ≤ hslL n
  · rw [if_pos h1] at h
    by_cases h2 : hslL n = 0
    · rw [if_pos h2] at h
      exact absurd h (by simp)
    · rw [if_neg h2, Option.some_inj] at h
      subst h
      have hn0 : 0 < hslL n := lt_of_le_of_ne (le_trans hc0 h1) (Ne.symm h2)
      refine ⟨div_nonneg hc0 hn0.le, ?_⟩
      have : hslL c / hslL n ≤ 1 := (div_le_one hn0).mpr h1
      linarith
  · rw [if_neg h1] at h
    by_cases h3 : hslL n = 1
    · rw [if_pos h3] at h
      exact absurd h (by simp)
    · rw [if_neg h3, Option.some_inj] at h
      subst h
      push_neg at h1
      have hn1 : hslL n < 1 := lt_of_le_of_ne (le_trans h1.le hc1) h3
      have hpos : 0 < 1 - hslL n := by linarith
      constructor
      · have : 0 ≤ (hslL c - hslL n) / (1 - hslL n) :=
          div_nonneg (by linarith) hpos.le
        linarith
      · have : (hslL c - hslL n) / (1 - hslL n) ≤ 1 :=
          (div_le_one hpos).mpr (by linarith)
        linarith

theorem rl_adjust_shape (c : RGB) (sh : ℚ) (n : RGB) (s : String) (c' : RGB)
    (h : rl_adjust c sh n s = some c') : ∃ p, c' = adjust_dl n p := by
  simp only [rl_adjust, Option.bind_eq_bind] at h
  rcases hgp : get_position c n with _ | cp
  · rw [hgp] at h
    simp at h
  · rw [hgp] at h
    simp only [Option.some_bind, Option.some_inj] at h
    exact ⟨_, h.symm⟩

/-- C10: for every neutral color with channels in [0,255] and every position,
also far outside [0,2], adjust_dl returns a color whose channels are all
in [0,255]. -/
theorem c10_adjust_dl_in_range (n : RGB) (p : ℚ) (h : inRange n) :
    inRange (adjust_dl n p) :=
  adjust_dl_mem n p h

theorem c10_witness : inRange (⟨10, 200, 255⟩ : RGB) ∧ inRange (adjust_dl ⟨10, 200, 255⟩ (7/2)) :=
  ⟨by decide, c10_adjust_dl_in_range ⟨10, 200, 255⟩ (7/2) (by decide)⟩

/-- C9: whenever rl_adjust returns a color, recomputing that color's position
against the same neutral anchor gives a value in [0,2]. -/
theorem c9_rl_adjust_position_range (n : RGB) (hn : inRange n) (c : RGB) (sh : ℚ)
    (s : String) (c' : RGB) (p : ℚ) (h1 : rl_adjust c sh n s = some c')
    (h2 : get_position c' n = some p) : 0 ≤ p ∧ p ≤ 2 := by
  obtain ⟨q, rfl⟩ := rl_adjust_shape c sh n s c' h1
  exact get_position_mem _ n (adjust_dl_mem n q hn) p h2

theorem c9_witness : 0 ≤ (2:ℚ) ∧ (2:ℚ) ≤ 2 :=
  c9_rl_adjust_position_range ⟨100, 110, 120⟩ (by decide) ⟨50, 60, 70⟩ 5 ("dark")
    ⟨255, 255, 255⟩ 2 (by decide) (by decide)

theorem adjust_dl_zero (n : RGB) : adjust_dl n 0 = ⟨0, 0, 0⟩ := by
  have h0 : maxQ 0 (minQ 2 0) = 0 := by norm_num [maxQ, minQ]
  simp only [adjust_dl, h0, if_pos (by norm_num : (0:ℚ) < 1)]
  norm_num [pyInt]

theorem adjust_dl_two (n : RGB) : adjust_dl n 2 = ⟨255, 255, 255⟩ := by
  have h2 : maxQ 0 (minQ 2 2) = 2 := by norm_num [maxQ, minQ]
  simp only [adjust_dl, h2, if_neg (by norm_num : ¬ (2:ℚ) < 1)]
  norm_num [pyInt]

theorem adjust_dl_one (n : RGB) : adjust_dl n 1 = n := by
  have h1 : maxQ 0 (minQ 2 1) = 1 := by norm_num [maxQ, minQ]
  simp only [adjust_dl, h1, if_neg (lt_irrefl (1:ℚ))]
  norm_num [pyInt_intCast]

/-- C6: at position 1.0 the scheme adjuster returns the neutral color exactly,
for every scheme string (both schemes included). -/
theorem c6_position_one_fixed (n : RGB) (s : String) : scheme_adjust_dl n s 1 = n := by
  simp only [scheme_adjust_dl]
  have h : (if s = "light" then 2 - (1:ℚ) else 1) = 1 := by split <;> norm_num
  rw [h, adjust_dl_one]

/-- C3 counterexample: in the light scheme, position 0.0 yields white, not
black as the claim states. -/
theorem c3_light_zero_is_white :
    scheme_adjust_dl ⟨128, 128, 128⟩ ("light") 0 = ⟨255, 255, 255⟩ ∧
    scheme_adjust_dl ⟨128, 128, 128⟩ ("light") 0 ≠ ⟨0, 0, 0⟩ := by
  constructor <;> decide

/-- C3 amended: position 0.0 yields black and 2.0 white for every scheme other
than light; the light scheme swaps the endpoints (0.0 yields white, 2.0 black). -/
theorem c3_endpoints_by_scheme (n : RGB) (s : String) (h : s ≠ "light") :
    scheme_adjust_dl n s 0 = ⟨0, 0, 0⟩ ∧ scheme_adjust_dl n s 2 = ⟨255, 255, 255⟩ ∧
    scheme_adjust_dl n "light" 0 = ⟨255, 255, 255⟩ ∧
    scheme_adjust_dl n "light" 2 = ⟨0, 0, 0⟩ := by
  simp only [scheme_adjust_dl, if_neg h, if_pos rfl]
  norm_num [adjust_dl_zero, adjust_dl_two]

theorem c3_witness :
    scheme_adjust_dl ⟨128, 128, 128⟩ ("dark") 0 = ⟨0, 0, 0⟩ ∧
    scheme_adjust_dl ⟨128, 128, 128⟩ ("dark") 2 = ⟨255, 255, 255⟩ ∧
    scheme_adjust_dl ⟨128, 128, 128⟩ ("light") 0 = ⟨255, 255, 255⟩ ∧
    scheme_adjust_dl ⟨128, 128, 128⟩ ("light") 2 = ⟨0, 0, 0⟩ :=
  c3_endpoints_by_scheme ⟨128, 128, 128⟩ ("dark") (by decide)

/-- C1 amended: a scheme string other than light behaves as dark only inside
scheme_adjust_dl; rl_adjust negates the shift for every scheme other than the
literal dark, treating it as light. -/
theorem c1_scheme_split (s : String) (hL : s ≠ "light") (hD : s ≠ "dark")
    (n c : RGB) (p sh : ℚ) :
    scheme_adjust_dl n s p = scheme_adjust_dl n "dark" p ∧
    rl_adjust c sh n s = rl_adjust c sh n "light" := by
  constructor
  · simp only [scheme_adjust_dl, if_neg hL,
      if_neg (by decide : ¬ ("dark" : String) = "light")]
  · simp only [rl_adjust, if_neg hD,
      if_neg (by decide : ¬ ("light" : String) = "dark")]

theorem c1_witness :
    scheme_adjust_dl ⟨10, 20, 30⟩ ("weird") (1/2) = scheme_adjust_dl ⟨10, 20, 30⟩ ("dark") (1/2) ∧
    rl_adjust ⟨5, 5, 5⟩ (1/10) ⟨10, 20, 30⟩ ("weird") = rl_adjust ⟨5, 5, 5⟩ (1/10) ⟨10, 20, 30⟩ ("light") :=
  c1_scheme_split ("weird") (by decide) (by decide) ⟨10, 20, 30⟩ ⟨5, 5, 5⟩ (1/2) (1/10)

set_option maxRecDepth 40000 in
/-- C1 counterexample: with the unrecognized scheme string weird the generated
theme differs from the dark theme for the same base color (the shift direction
flips in rl_adjust and the color-scheme declaration echoes the string). -/
theorem c1_unrecognized_scheme_differs :
    generate_theme ("#50B464") ("weird") ≠ generate_theme ("#50B464") ("dark") := by
  decide

/-- C2: generating a theme from the well-formed input #000000 fails: the
neutral anchor is pure black, its lightness is 0, and get_position divides
by it, so the run raises ZeroDivisionError (none in the embedding) for the
default scheme and for both explicit schemes. -/
theorem c2_black_input_divzero :
    generate_theme ("#000000") ("dark") = none ∧
    generate_theme ("#000000") ("light") = none := by
  constructor <;> decide

/-- C4 counterexample: eight hex digits are accepted silently, decoding the
first six, where the claim requires a failure. -/
theorem c4_eight_digits_accepted : hex_to_rgb ("AABBCCDD") = some ⟨170, 187, 204⟩ := by
  decide

theorem dropWhile_hash_of_hex (t : List Char) (ht : ∀ c ∈ t, isHexDigit c) :
    t.dropWhile (fun c => c == ('#')) = t := by
  cases t with
  | nil => rfl
  | cons c cs =>
    have hc : isHexDigit c := ht c (List.mem_cons_self c cs)
    have hfalse : (c == ('#')) = false := by
      cases hb : (c == ('#')) with
      | false => rfl
      | true =>
        have hceq : c = '#' := by simpa using hb
        subst hceq
        exact absurd hc (by decide)
    simp [List.dropWhile_cons, hfalse]

theorem pyIntHex_isSome (l : List Char) (h : ∀ c ∈ l, isHexDigit c) :
    (pyIntHex l).isSome ↔ l ≠ [] := by
  unfold pyIntHex
  split
  · rename_i hcond
    simpa using hcond.1
  · rename_i hcond
    have hl : l = [] := by
      by_contra hne
      exact hcond ⟨hne, h⟩
    subst hl
    simp

/-- C4 amended: hex_to_rgb strips a leading hash mark, and on a string of hex
digits it succeeds exactly when at least five digits are present, silently
ignoring everything beyond the sixth; the failure demanded by the claim
happens only below five digits. -/
theorem c4_hex_parse_amended (t : List Char) (ht : ∀ c ∈ t, isHexDigit c) :
    hex_to_rgb (String.mk (('#') :: t)) = hex_to_rgb (String.mk t) ∧
    ((hex_to_rgb (String.mk t)).isSome ↔ 5 ≤ t.length) := by
  have hdrop : t.dropWhile (fun c => c == ('#')) = t := dropWhile_hash_of_hex t ht
  have hdrop2 : (('#') :: t).dropWhile (fun c => c == ('#')) = t := by
    rw [List.dropWhile_cons_of_pos (by simp)]
    exact hdrop
  constructor
  · simp only [hex_to_rgb]
    rw [hdrop, hdrop2]
  · simp only [hex_to_rgb]
    rw [hdrop]
    rcases le_or_lt 5 t.length with hlen | hlen
    · have hs1 : ∀ c ∈ (t.drop 0).take 2, isHexDigit c :=
        fun c hc => ht c (List.drop_subset _ _ (List.take_subset _ _ hc))
      have hs2 : ∀ c ∈ (t.drop 2).take 2, isHexDigit c :=
        fun c hc => ht c (List.drop_subset _ _ (List.take_subset _ _ hc))
      have hs3 : ∀ c ∈ (t.drop 4).take 2, isHexDigit c :=
        fun c hc => ht c (List.drop_subset _ _ (List.take_subset _ _ hc))
      have hne1 : (t.drop 0).take 2 ≠ [] := by
        rw [Ne, List.take_eq_nil_iff]
        push_neg
        refine ⟨by norm_num, ?_⟩
        rw [Ne, List.drop_eq_nil_iff]
        omega
      have hne2 : (t.drop 2).take 2 ≠ [] := by
        rw [Ne, List.take_eq_nil_iff]
        push_neg
        refine ⟨by norm_num, ?_⟩
        rw [Ne, List.drop_eq_nil_iff]
        omega
      have hne3 : (t.drop 4).take 2 ≠ [] := by
        rw [Ne, List.take_eq_nil_iff]
        push_neg
        refine ⟨by norm_num, ?_⟩
        rw [Ne, List.drop_eq_nil_iff]
        omega
      obtain ⟨v1, hv1⟩ := Option.isSome_iff_exists.mp ((pyIntHex_isSome _ hs1).mpr hne1)
      obtain ⟨v2, hv2⟩ := Option.isSome_iff_exists.mp ((pyIntHex_isSome _ hs2).mpr hne2)
      obtain ⟨v3, hv3⟩ := Option.isSome_iff_exists.mp ((pyIntHex_isSome _ hs3).mpr hne3)
      simp only [hv1, hv2, hv3, Option.bind_eq_bind, Option.some_bind]
      simp [hlen]
    · have hnil : (t.drop 4).take 2 = [] := by
        have h4 : t.drop 4 = [] := List.drop_eq_nil_iff.mpr (by omega)
        rw [h4, List.take_nil]
      have h3 : pyIntHex ((t.drop 4).take 2) = none := by
        rw [hnil]
        rfl
      rcases hb1 : pyIntHex ((t.drop 0).take 2) with _ | v1 <;>
        rcases hb2 : pyIntHex ((t.drop 2).take 2) with _ | v2 <;>
          simp [hb1, hb2, h3] <;> omega

theorem c4_witness :
    hex_to_rgb (String.mk (('#') :: [('5'), ('0'), ('B'), ('4'), ('6'), ('4')])) =
      hex_to_rgb (String.mk [('5'), ('0'), ('B'), ('4'), ('6'), ('4')]) ∧
    ((hex_to_rgb (String.mk [('5'), ('0'), ('B'), ('4'), ('6'), ('4')])).isSome ↔
      5 ≤ ([('5'), ('0'), ('B'), ('4'), ('6'), ('4')] : List Char).length) :=
  c4_hex_parse_amended [('5'), ('0'), ('B'), ('4'), ('6'), ('4')] (by decide)

theorem pyMod1_mem (q : ℚ) : 0 ≤ pyMod1 q ∧ pyMod1 q < 1 := by
  unfold pyMod1
  constructor
  · have := Int.floor_le q
    linarith
  · have := Int.lt_floor_add_one q
    linarith

theorem rgb_to_hls_h_mem (r g b : ℚ) :
    0 ≤ (rgb_to_hls r g b).1 ∧ (rgb_to_hls r g b).1 < 1 := by
  simp only [rgb_to_hls]
  split
  · norm_num
  · exact pyMod1_mem _

theorem hslH_mem (c : RGB) : 0 ≤ hslH c ∧ hslH c < 1 :=
  rgb_to_hls_h_mem _ _ _

theorem wrap_neg (x : ℚ) :
    (if 180 < |(-x)| then (if 0 < -x then -x - 360 else -x + 360) else -x)
      = -(if 180 < |x| then (if 0 < x then x - 360 else x + 360) else x) := by
  rw [abs_neg]
  by_cases h : 180 < |x|
  · rw [if_pos h, if_pos h]
    have hx0 : x ≠ 0 := by
      intro h0
      subst h0
      norm_num at h
    by_cases hp : 0 < x
    · rw [if_neg (by linarith : ¬ 0 < -x), if_pos hp]
      ring
    · have hneg : x < 0 := lt_of_le_of_ne (not_lt.mp hp) hx0
      rw [if_pos (by linarith : 0 < -x), if_neg hp]
      ring
  · rw [if_neg h, if_neg h]

theorem wrap_range (x : ℚ) (h1 : -360 < x) (h2 : x < 360) :
    -180 ≤ (if 180 < |x| then (if 0 < x then x - 360 else x + 360) else x) ∧
    (if 180 < |x| then (if 0 < x then x - 360 else x + 360) else x) ≤ 180 := by
  by_cases h : 180 < |x|
  · rw [if_pos h]
    by_cases hp : 0 < x
    · rw [if_pos hp]
      have hgt : 180 < x := by rwa [abs_of_pos hp] at h
      constructor <;> linarith
    · rw [if_neg hp]
      have hgt : 180 < -x := by rwa [abs_of_nonpos (not_lt.mp hp)] at h
      constructor <;> linarith
  · rw [if_neg h]
    push_neg at h
    rw [abs_le] at h
    exact h

theorem pyInt_range_180 (q : ℚ) (h1 : -180 ≤ q) (h2 : q ≤ 180) :
    -180 ≤ pyInt q ∧ pyInt q ≤ 180 := by
  unfold pyInt
  split
  · constructor
    · have hq : ((-180 : ℤ) : ℚ) ≤ q := by exact_mod_cast h1
      have := le_trans hq (Int.le_ceil q)
      exact_mod_cast this
    · calc ⌈q⌉ ≤ ⌈((180 : ℤ) : ℚ)⌉ := Int.ceil_mono (by exact_mod_cast h2)
      _ = 180 := Int.ceil_intCast _
  · constructor
    · calc (-180 : ℤ) = ⌊((-180 : ℤ) : ℚ)⌋ := (Int.floor_intCast _).symm
      _ ≤ ⌊q⌋ := Int.floor_mono (by exact_mod_cast h1)
    · have hle : (⌊q⌋ : ℚ) ≤ 180 := le_trans (Int.floor_le q) h2
      exact_mod_cast hle

/-- C8: whenever both hue rotations are defined, they are negatives of each
other and the result always lies in [-180, 180]. -/
theorem c8_hue_rotation_antisym_range (a b : String) (r r' : ℤ)
    (h1 : get_hue_rotation a b = some r) (h2 : get_hue_rotation b a = some r') :
    r = -r' ∧ -180 ≤ r ∧ r ≤ 180 := by
  simp only [get_hue_rotation, Option.bind_eq_bind] at h1 h2
  rcases ha : hex_to_rgb a with _ | ca
  · rw [ha] at h1
    simp at h1
  rcases hb : hex_to_rgb b with _ | cb
  · rw [ha, hb] at h1
    simp at h1
  rw [ha, hb] at h1
  rw [hb, ha] at h2
  simp only [Option.some_bind, Option.some_inj] at h1 h2
  obtain ⟨ha0, ha1⟩ := hslH_mem ca
  obtain ⟨hb0, hb1⟩ := hslH_mem cb
  have hxlo : -360 < hslH cb * 360 - hslH ca * 360 := by linarith
  have hxhi : hslH cb * 360 - hslH ca * 360 < 360 := by linarith
  have hflip : hslH ca * 360 - hslH cb * 360 = -(hslH cb * 360 - hslH ca * 360) := by
    ring
  rw [hflip, wrap_neg, pyInt_neg] at h2
  subst h1
  constructor
  · omega
  · exact pyInt_range_180 _ (wrap_range _ hxlo hxhi).1 (wrap_range _ hxlo hxhi).2

theorem c8_witness : (-123 : ℤ) = -(123 : ℤ) ∧ (-180 : ℤ) ≤ -123 ∧ (-123 : ℤ) ≤ 180 :=
  c8_hue_rotation_antisym_range ("#815EE8") ("#50B464") (-123) 123
    (by decide) (by decide)

theorem ch_le_maxCh (c : RGB) : c.r ≤ maxCh c ∧ c.g ≤ maxCh c ∧ c.b ≤ maxCh c := by
  unfold maxCh
  rw [maxZ_eq, maxZ_eq]
  exact ⟨le_max_left _ _, le_trans (le_max_left _ _) (le_max_right _ _),
    le_trans (le_max_right _ _) (le_max_right _ _)⟩

theorem minCh_le_ch (c : RGB) : minCh c ≤ c.r ∧ minCh c ≤ c.g ∧ minCh c ≤ c.b := by
  unfold minCh
  rw [minZ_eq, minZ_eq]
  exact ⟨min_le_left _ _, le_trans (min_le_right _ _) (min_le_left _ _),
    le_trans (min_le_right _ _) (min_le_right _ _)⟩

theorem minCh_nonneg (c : RGB) (h : inRange c) : 0 ≤ minCh c := by
  obtain ⟨h1, _, h3, _, h5, _⟩ := h
  unfold minCh
  rw [minZ_eq, minZ_eq]
  exact le_min h1 (le_min h3 h5)

theorem maxCh_le_255 (c : RGB) (h : inRange c) : maxCh c ≤ 255 := by
  obtain ⟨_, h2, _, h4, _, h6⟩ := h
  unfold maxCh
  rw [maxZ_eq, maxZ_eq]
  exact max_le h2 (max_le h4 h6)

theorem minCh_le_maxCh (c : RGB) : minCh c ≤ maxCh c :=
  le_trans (minCh_le_ch c).1 (ch_le_maxCh c).1

theorem sumCh_pos (c : RGB) (h : inRange c) (hne : c ≠ ⟨0, 0, 0⟩) :
    0 < maxCh c + minCh c := by
  obtain ⟨h1, h2, h3, h4, h5, h6⟩ := h
  by_contra hle
  push_neg at hle
  have hm0 : 0 ≤ minCh c := by
    unfold minCh
    rw [minZ_eq, minZ_eq]
    exact le_min h1 (le_min h3 h5)
  have hmax0 : maxCh c ≤ 0 := by linarith
  have hr0 : c.r ≤ 0 := le_trans (ch_le_maxCh c).1 hmax0
  have hg0 : c.g ≤ 0 := le_trans (ch_le_maxCh c).2.1 hmax0
  have hb0 : c.b ≤ 0 := le_trans (ch_le_maxCh c).2.2 hmax0
  apply hne
  have hr : c.r = 0 := le_antisymm hr0 h1
  have hg : c.g = 0 := le_antisymm hg0 h3
  have hb : c.b = 0 := le_antisymm hb0 h5
  cases c
  simp_all

theorem pyInt_mono : Monotone pyInt := by
  intro a b hab
  unfold pyInt
  by_cases ha : a < 0 <;> by_cases hb : b < 0
  · rw [if_pos ha, if_pos hb]
    exact Int.ceil_mono hab
  · rw [if_pos ha, if_neg hb]
    have hcl : ⌈a⌉ ≤ (0 : ℤ) := Int.ceil_le.mpr (by exact_mod_cast ha.le)
    exact le_trans hcl (Int.floor_nonneg.mpr (not_lt.mp hb))
  · exact absurd (lt_of_le_of_lt hab hb) ha
  · rw [if_neg ha, if_neg hb]
    exact Int.floor_mono hab

/-- C7: for a non-black in-range color the neutral version has lightness
within one 255th of one half (truncation tolerance), and pure black is a
fixed point of get_neutral_rgb. -/
theorem c7_neutral_lightness (c : RGB) (h : inRange c) :
    (c ≠ ⟨0, 0, 0⟩ → |hslL (get_neutral_rgb c) - 1/2| < 1/255) ∧
    (c = ⟨0, 0, 0⟩ → get_neutral_rgb c = c) := by
  refine ⟨?_, fun he => by subst he; decide⟩
  intro hne
  obtain ⟨h1, h2, h3, h4, h5, h6⟩ := h
  have hm0 : 0 ≤ minCh c := minCh_nonneg c ⟨h1, h2, h3, h4, h5, h6⟩
  have hM255 : maxCh c ≤ 255 := maxCh_le_255 c ⟨h1, h2, h3, h4, h5, h6⟩
  have hmM : minCh c ≤ maxCh c := minCh_le_maxCh c
  have hS : 0 < maxCh c + minCh c := sumCh_pos c ⟨h1, h2, h3, h4, h5, h6⟩ hne
  set S : ℚ := (maxCh c : ℚ) + (minCh c : ℚ) with hSdef
  have hSQ : (0 : ℚ) < S := by
    rw [hSdef]
    exact_mod_cast hS
  have hfpos : (0 : ℚ) < 255 / S := div_pos (by norm_num) hSQ
  have hl : hslL c = S / 510 := hslL_eq c
  have hlpos : 0 < hslL c := by
    rw [hl]
    exact div_pos hSQ (by norm_num)
  have hfact : (1 / 2 : ℚ) / hslL c = 255 / S := by
    rw [hl, div_div_eq_mul_div]
    norm_num
  have hgn : get_neutral_rgb c = adjust_rgb c (255 / S) := by
    simp only [get_neutral_rgb, if_pos hlpos, hfact]
  have f_eq : ∀ x : ℤ, 0 ≤ x → x ≤ maxCh c →
      minZ 255 (maxZ 0 (pyInt ((x : ℚ) * (255 / S)))) = pyInt ((x : ℚ) * (255 / S)) := by
    intro x hx0 hxM
    have harg0 : (0 : ℚ) ≤ (x : ℚ) * (255 / S) :=
      mul_nonneg (by exact_mod_cast hx0) hfpos.le
    have hxS : (x : ℚ) ≤ S := by
      rw [hSdef]
      have : x ≤ maxCh c + minCh c := by linarith
      exact_mod_cast this
    have hle : (x : ℚ) * (255 / S) ≤ ((255 : ℤ) : ℚ) := by
      have step : (x : ℚ) * (255 / S) ≤ S * (255 / S) :=
        mul_le_mul_of_nonneg_right hxS hfpos.le
      have : S * (255 / S) = 255 := by
        field_simp
      push_cast
      linarith
    rw [maxZ_eq, minZ_eq]
    rw [max_eq_right (pyInt_nonneg _ harg0), min_eq_right (pyInt_le _ _ harg0 hle)]
  have hch : get_neutral_rgb c =
      ⟨pyInt ((c.r : ℚ) * (255 / S)), pyInt ((c.g : ℚ) * (255 / S)),
       pyInt ((c.b : ℚ) * (255 / S))⟩ := by
    rw [hgn]
    unfold adjust_rgb
    rw [f_eq c.r h1 (ch_le_maxCh c).1, f_eq c.g h3 (ch_le_maxCh c).2.1,
      f_eq c.b h5 (ch_le_maxCh c).2.2]
  have hfmono : Monotone (fun x : ℤ => pyInt ((x : ℚ) * (255 / S))) := by
    intro a b hab
    apply pyInt_mono
    have hc : (a : ℚ) ≤ (b : ℚ) := by exact_mod_cast hab
    exact mul_le_mul_of_nonneg_right hc hfpos.le
  have hmaxc : maxCh c = max c.r (max c.g c.b) := by
    unfold maxCh
    rw [maxZ_eq, maxZ_eq]
  have hminc : minCh c = min c.r (min c.g c.b) := by
    unfold minCh
    rw [minZ_eq, minZ_eq]
  have hfmax : ∀ a b : ℤ, pyInt (((max a b : ℤ) : ℚ) * (255 / S)) =
      max (pyInt ((a : ℚ) * (255 / S))) (pyInt ((b : ℚ) * (255 / S))) := by
    intro a b
    rcases le_total a b with hab | hab
    · rw [max_eq_right hab, max_eq_right (hfmono hab)]
    · rw [max_eq_left hab, max_eq_left (hfmono hab)]
  have hfmin : ∀ a b : ℤ, pyInt (((min a b : ℤ) : ℚ) * (255 / S)) =
      min (pyInt ((a : ℚ) * (255 / S))) (pyInt ((b : ℚ) * (255 / S))) := by
    intro a b
    rcases le_total a b with hab | hab
    · rw [min_eq_left hab, min_eq_left (hfmono hab)]
    · rw [min_eq_right hab, min_eq_right (hfmono hab)]
  have hmaxn : maxCh (get_neutral_rgb c) = pyInt ((maxCh c : ℚ) * (255 / S)) := by
    rw [hch, hmaxc]
    unfold maxCh
    rw [maxZ_eq, maxZ_eq, hfmax, hfmax]
  have hminn : minCh (get_neutral_rgb c) = pyInt ((minCh c : ℚ) * (255 / S)) := by
    rw [hch, hminc]
    unfold minCh
    rw [minZ_eq, minZ_eq, hfmin, hfmin]
  have hargM0 : (0 : ℚ) ≤ (maxCh c : ℚ) * (255 / S) :=
    mul_nonneg (by exact_mod_cast le_trans hm0 hmM) hfpos.le
  have hargm0 : (0 : ℚ) ≤ (minCh c : ℚ) * (255 / S) :=
    mul_nonneg (by exact_mod_cast hm0) hfpos.le
  have hFMle : ((pyInt ((maxCh c : ℚ) * (255 / S))) : ℚ) ≤ (maxCh c : ℚ) * (255 / S) := by
    rw [pyInt_of_nonneg _ hargM0]
    exact Int.floor_le _
  have hFMgt : (maxCh c : ℚ) * (255 / S) - 1 < ((pyInt ((maxCh c : ℚ) * (255 / S))) : ℚ) := by
    rw [pyInt_of_nonneg _ hargM0]
    exact Int.sub_one_lt_floor _
  have hFmle : ((pyInt ((minCh c : ℚ) * (255 / S))) : ℚ) ≤ (minCh c : ℚ) * (255 / S) := by
    rw [pyInt_of_nonneg _ hargm0]
    exact Int.floor_le _
  have hFmgt : (minCh c : ℚ) * (255 / S) - 1 < ((pyInt ((minCh c : ℚ) * (255 / S))) : ℚ) := by
    rw [pyInt_of_nonneg _ hargm0]
    exact Int.sub_one_lt_floor _
  have hsum : (maxCh c : ℚ) * (255 / S) + (minCh c : ℚ) * (255 / S) = 255 := by
    have : ((maxCh c : ℚ) + (minCh c : ℚ)) * (255 / S) = S * (255 / S) := by
      rw [hSdef]
    rw [← add_mul, this]
    field_simp
  have hL : hslL (get_neutral_rgb c) =
      (((pyInt ((maxCh c : ℚ) * (255 / S))) : ℚ) + ((pyInt ((minCh c : ℚ) * (255 / S))) : ℚ)) / 510 := by
    rw [hslL_eq, hmaxn, hminn]
  rw [hL, abs_lt]
  constructor <;> linarith

theorem c7_witness : |hslL (get_neutral_rgb ⟨200, 100, 50⟩) - 1/2| < 1/255 :=
  (c7_neutral_lightness ⟨200, 100, 50⟩ (by decide)).1 (by decide)

theorem get_hue_rotation_range (a b : String) (r : ℤ)
    (h : get_hue_rotation a b = some r) : -180 ≤ r ∧ r ≤ 180 := by
  simp only [get_hue_rotation, Option.bind_eq_bind, Option.bind_eq_some,
    Option.some_inj] at h
  obtain ⟨ca, _, cb, _, hr⟩ := h
  obtain ⟨ha0, ha1⟩ := hslH_mem ca
  obtain ⟨hb0, hb1⟩ := hslH_mem cb
  have hxlo : -360 < hslH cb * 360 - hslH ca * 360 := by linarith
  have hxhi : hslH cb * 360 - hslH ca * 360 < 360 := by linarith
  subst hr
  exact pyInt_range_180 _ (wrap_range _ hxlo hxhi).1 (wrap_range _ hxlo hxhi).2

theorem scheme_adjust_dl_mem (n : RGB) (s : String) (p : ℚ) (h : inRange n) :
    inRange (scheme_adjust_dl n s p) := by
  unfold scheme_adjust_dl
  exact adjust_dl_mem _ _ h

theorem rl_adjust_mem (c : RGB) (sh : ℚ) (n : RGB) (s : String) (c' : RGB)
    (h : rl_adjust c sh n s = some c') (hn : inRange n) : inRange c' := by
  obtain ⟨p, rfl⟩ := rl_adjust_shape c sh n s c' h
  exact adjust_dl_mem n p hn

theorem countChar_append (a b : String) (ch : Char) :
    countChar (a ++ b) ch = countChar a ch + countChar b ch := by
  simp [countChar, String.data_append, List.count_append]

set_option maxRecDepth 4000 in
theorem toString_byte_no_brace :
    ∀ k : Fin 256, countChar (toString ((k : ℕ) : ℤ)) ('\x7b') = 0 ∧
      countChar (toString ((k : ℕ) : ℤ)) ('\x7d') = 0 := by decide

theorem int_no_brace (z : ℤ) (h0 : 0 ≤ z) (h255 : z ≤ 255) :
    countChar (toString z) ('\x7b') = 0 ∧ countChar (toString z) ('\x7d') = 0 := by
  have hz : z = ((z.toNat : ℕ) : ℤ) := (Int.toNat_of_nonneg h0).symm
  have hlt : z.toNat < 256 := by omega
  rw [hz]
  exact toString_byte_no_brace ⟨z.toNat, hlt⟩

set_option maxRecDepth 4000 in
theorem toString_rot_no_brace :
    ∀ k : Fin 361, countChar (toString (((k : ℕ) : ℤ) - 180)) ('\x7b') = 0 ∧
      countChar (toString (((k : ℕ) : ℤ) - 180)) ('\x7d') = 0 := by decide

theorem rot_no_brace (z : ℤ) (h1 : -180 ≤ z) (h2 : z ≤ 180) :
    countChar (toString z) ('\x7b') = 0 ∧ countChar (toString z) ('\x7d') = 0 := by
  have hz : z = (((z + 180).toNat : ℕ) : ℤ) - 180 := by omega
  have hlt : (z + 180).toNat < 361 := by omega
  rw [hz]
  exact toString_rot_no_brace ⟨(z + 180).toNat, hlt⟩

theorem rgb_no_brace (c : RGB) (h : inRange c) :
    countChar (rgb_to_str c) ('\x7b') = 0 ∧ countChar (rgb_to_str c) ('\x7d') = 0 := by
  obtain ⟨h1, h2, h3, h4, h5, h6⟩ := h
  obtain ⟨hr1, hr2⟩ := int_no_brace c.r h1 h2
  obtain ⟨hg1, hg2⟩ := int_no_brace c.g h3 h4
  obtain ⟨hb1, hb2⟩ := int_no_brace c.b h5 h6
  constructor
  · simp only [rgb_to_str, countChar_append, hr1, hg1, hb1]
    decide
  · simp only [rgb_to_str, countChar_append, hr2, hg2, hb2]
    decide

theorem rgba_no_brace (c : RGB) (h : inRange c) (al : String)
    (hal1 : countChar al ('\x7b') = 0) (hal2 : countChar al ('\x7d') = 0) :
    countChar (rgba_to_str c al) ('\x7b') = 0 ∧
    countChar (rgba_to_str c al) ('\x7d') = 0 := by
  obtain ⟨h1, h2, h3, h4, h5, h6⟩ := h
  obtain ⟨hr1, hr2⟩ := int_no_brace c.r h1 h2
  obtain ⟨hg1, hg2⟩ := int_no_brace c.g h3 h4
  obtain ⟨hb1, hb2⟩ := int_no_brace c.b h5 h6
  constructor
  · simp only [rgba_to_str, countChar_append, hr1, hg1, hb1, hal1]
    decide
  · simp only [rgba_to_str, countChar_append, hr2, hg2, hb2, hal2]
    decide

set_option maxRecDepth 8000 in
theorem generate_theme_brace_count (base scheme css : String)
    (h : generate_theme base scheme = some css)
    (hb1 : countChar base ('\x7b') = 0) (hb2 : countChar base ('\x7d') = 0)
    (hs1 : countChar scheme ('\x7b') = 0) (hs2 : countChar scheme ('\x7d') = 0) :
    countChar css ('\x7b') = 2 ∧ countChar css ('\x7d') = 3 := by
  simp only [generate_theme, Option.bind_eq_bind, Option.bind_eq_some,
    Option.some_inj] at h
  obtain ⟨raw, hraw, rot, hrot, pch, h3, pcs, h4, stc, h5, ttc, h6, ibg, h7,
    ibd, h8, itx, h9, mbg, h10, hcss⟩ := h
  subst hcss
  have hN : inRange (get_neutral_rgb raw) := get_neutral_rgb_mem raw
  have hadj1 : ∀ p : ℚ,
      countChar (rgb_to_str (scheme_adjust_dl (get_neutral_rgb raw) scheme p)) ('\x7b') = 0 :=
    fun p => (rgb_no_brace _ (scheme_adjust_dl_mem _ _ _ hN)).1
  have hadj2 : ∀ p : ℚ,
      countChar (rgb_to_str (scheme_adjust_dl (get_neutral_rgb raw) scheme p)) ('\x7d') = 0 :=
    fun p => (rgb_no_brace _ (scheme_adjust_dl_mem _ _ _ hN)).2
  have hA1 : ∀ (p : ℚ),
      countChar (rgba_to_str (scheme_adjust_dl (get_neutral_rgb raw) scheme p) ("0.15")) ('\x7b') = 0 :=
    fun p => (rgba_no_brace _ (scheme_adjust_dl_mem _ _ _ hN) _ (by decide) (by decide)).1
  have hA2 : ∀ (p : ℚ),
      countChar (rgba_to_str (scheme_adjust_dl (get_neutral_rgb raw) scheme p) ("0.15")) ('\x7d') = 0 :=
    fun p => (rgba_no_brace _ (scheme_adjust_dl_mem _ _ _ hN) _ (by decide) (by decide)).2
  have hB1 : ∀ (p : ℚ),
      countChar (rgba_to_str (scheme_adjust_dl (get_neutral_rgb raw) scheme p) ("0.5")) ('\x7b') = 0 :=
    fun p => (rgba_no_brace _ (scheme_adjust_dl_mem _ _ _ hN) _ (by decide) (by decide)).1
  have hB2 : ∀ (p : ℚ),
      countChar (rgba_to_str (scheme_adjust_dl (get_neutral_rgb raw) scheme p) ("0.5")) ('\x7d') = 0 :=
    fun p => (rgba_no_brace _ (scheme_adjust_dl_mem _ _ _ hN) _ (by decide) (by decide)).2
  have hC1 : ∀ (p : ℚ),
      countChar (rgba_to_str (scheme_adjust_dl (get_neutral_rgb raw) scheme p) ("0.6")) ('\x7b') = 0 :=
    fun p => (rgba_no_brace _ (scheme_adjust_dl_mem _ _ _ hN) _ (by decide) (by decide)).1
  have hC2 : ∀ (p : ℚ),
      countChar (rgba_to_str (scheme_adjust_dl (get_neutral_rgb raw) scheme p) ("0.6")) ('\x7d') = 0 :=
    fun p => (rgba_no_brace _ (scheme_adjust_dl_mem _ _ _ hN) _ (by decide) (by decide)).2
  have hpch := rgb_no_brace pch (rl_adjust_mem _ _ _ _ _ h3 hN)
  have hpcs := rgb_no_brace pcs (rl_adjust_mem _ _ _ _ _ h4 hN)
  have hstc := rgb_no_brace stc (rl_adjust_mem _ _ _ _ _ h5 hN)
  have httc := rgb_no_brace ttc (rl_adjust_mem _ _ _ _ _ h6 hN)
  have hibg := rgb_no_brace ibg (rl_adjust_mem _ _ _ _ _ h7 hN)
  have hibd := rgb_no_brace ibd (rl_adjust_mem _ _ _ _ _ h8 hN)
  have hitx := rgb_no_brace itx (rl_adjust_mem _ _ _ _ _ h9 hN)
  have hmbg := rgb_no_brace mbg (rl_adjust_mem _ _ _ _ _ h10 hN)
  have hrotn := rot_no_brace rot (get_hue_rotation_range _ _ _ hrot).1
    (get_hue_rotation_range _ _ _ hrot).2
  constructor
  · simp only [countChar_append, hadj1, hA1, hB1, hC1, hb1, hs1,
      hpch.1, hpcs.1, hstc.1, httc.1, hibg.1, hibd.1, hitx.1, hmbg.1, hrotn.1]
    decide
  · simp only [countChar_append, hadj2, hA2, hB2, hC2, hb2, hs2,
      hpch.2, hpcs.2, hstc.2, httc.2, hibg.2, hibd.2, hitx.2, hmbg.2, hrotn.2]
    decide

/-- C5: the CSS generated for the valid base color #50B464 in the dark scheme
contains two opening braces but three closing braces, so its braces do not
balance and the text is not valid CSS (the template emits a stray closing
brace after the .logo rule). -/
theorem c5_unbalanced_braces :
    ∃ css, generate_theme ("#50B464") ("dark") = some css ∧
      countChar css ('\x7b') = 2 ∧ countChar css ('\x7d') = 3 :=
  ⟨_, rfl, generate_theme_brace_count ("#50B464") ("dark") _ rfl
    (by decide) (by decide) (by decide) (by decide)⟩
